import Mathlib

/-!
Shallow embedding of the devsecops-risk-mapper core: the risk scoring
engine and gate decision maker (`src/platform/api/app/risk_engine.py`),
the in-process job queue (`src/platform/api/app/queue.py`), and the job
status endpoint (`src/platform/api/app/main.py`).

Modelling conventions:
* Python floats are modelled as rationals (exact real-number semantics).
* `datetime` values are modelled by `PyDateTime`: a wall-clock integer
  plus an optional timezone offset; an aware value denotes the absolute
  UTC instant `wall - offset`, a naive value is taken at face value.
  The evaluation instant (`datetime.now(timezone.utc)` in the source) is
  passed explicitly as an integer parameter `now`.
* Python dicts keyed by `Literal` string types are modelled as total
  functions on the corresponding enumeration; the `Literal` annotations
  in `models.py` make a `KeyError` unreachable.
* `sorted(set(xs))` is modelled by sorting the finite set of elements of
  the list; Lean's `String` linear order is lexicographic on code
  points, as in Python.
-/

namespace RiskMapper

/-- `Severity` enum from `models.py`. -/
inductive Severity where
  | critical
  | high
  | medium
  | low
  | info
deriving DecidableEq

/-- The `.value` of a `Severity` member (the pydantic enum is a `str` enum). -/
def Severity.val : Severity → String
  | .critical => "critical"
  | .high => "high"
  | .medium => "medium"
  | .low => "low"
  | .info => "info"

/-- The `Literal["dev", "staging", "prod"]` environment of `AssetContext`. -/
inductive Environment where
  | dev
  | staging
  | prod
deriving DecidableEq

/-- The `Literal["public", "internal", "confidential", "restricted"]` data
classification of `AssetContext`. -/
inductive DataClassification where
  | public
  | internal
  | confidential
  | restricted
deriving DecidableEq

/-- The `Literal["open", "accepted_risk", "resolved"]` finding status;
`open` is a Lean keyword, so the first constructor is named `opened`. -/
inductive FindingStatus where
  | opened
  | accepted_risk
  | resolved
deriving DecidableEq

/-- The `Literal["pass", "warn", "block"]` gate result. -/
inductive GateResult where
  | pass
  | warn
  | block
deriving DecidableEq

/-- A Python `datetime`: a wall-clock value and an optional utc offset
(`tzinfo`).  `tz = none` is a naive datetime. -/
structure PyDateTime where
  wall : Int
  tz : Option Int
deriving DecidableEq

/-- The absolute UTC instant a datetime denotes, following the
normalization in `_has_approved_exception`: a naive value is assumed to
already be UTC (`replace(tzinfo=timezone.utc)`), an aware value is
converted (`astimezone(timezone.utc)`), which subtracts its offset. -/
def PyDateTime.toUTC (d : PyDateTime) : Int :=
  match d.tz with
  | none => d.wall
  | some off => d.wall - off

/-- `Asset` from `models.py` (fields the risk engine never reads are kept
as plain strings). -/
structure Asset where
  repo : String
  service : String
  owner : String
  environment : String
  criticality : String
  data_classification : String
deriving DecidableEq

/-- `Finding` from `models.py`. -/
structure Finding where
  id : String
  source : String
  type : String
  severity : Severity
  asset : Asset
  evidence_uri : String
  first_seen : PyDateTime
  last_seen : PyDateTime
  status : FindingStatus := .opened
  exploitability : ℚ := 1/2
  compensating_controls : ℚ := 0
deriving DecidableEq

/-- `AssetContext` from `models.py`. -/
structure AssetContext where
  internet_facing : Bool := true
  environment : Environment := .prod
  data_classification : DataClassification := .internal
deriving DecidableEq

/-- `RiskException` from `models.py`. -/
structure RiskException where
  finding_id : String
  owner : String
  expires_at : PyDateTime
  approved : Bool := false
deriving DecidableEq

/-- `GateDecision` from `models.py`. -/
structure GateDecision where
  result : GateResult
  score : ℚ
  reasons : List String
  evidence : List String
  policy_version : String
deriving DecidableEq

def POLICY_VERSION : String := "mvp-warn-only-v1"

/-- The `SEVERITY_BASE` dict of `risk_engine.py`. -/
def SEVERITY_BASE : Severity → ℚ
  | .critical => 45
  | .high => 30
  | .medium => 18
  | .low => 8
  | .info => 3

/-- The environment entries of the `EXPOSURE_WEIGHTS` dict of
`risk_engine.py`. -/
def EXPOSURE_WEIGHTS_env : Environment → ℚ
  | .prod => 12
  | .staging => 6
  | .dev => 2

/-- The `"internet_facing"` entry of the `EXPOSURE_WEIGHTS` dict. -/
def EXPOSURE_WEIGHTS_internet_facing : ℚ := 12

/-- The `DATA_BLAST` dict of `risk_engine.py`. -/
def DATA_BLAST : DataClassification → ℚ
  | .restricted => 20
  | .confidential => 15
  | .internal => 8
  | .public => 3

/-- `_has_approved_exception` from `risk_engine.py`: the `for` loop with
an early `return True` is a `List.any`; `now` is the instant read from
the clock at the top of the function. -/
def has_approved_exception (now : Int) (finding_id : String)
    (exceptions : List RiskException) : Bool :=
  exceptions.any fun item =>
    item.finding_id == finding_id && item.approved && decide (now < item.expires_at.toUTC)

/-- Python's `sorted(set(xs))` for a list of strings. -/
def dedupSort (xs : List String) : List String :=
  xs.toFinset.sort (· ≤ ·)

/-- The body of the `for finding in findings` loop of `calculate_score`,
acting on the accumulator `(total, reasons, evidence)`. -/
def calc_step (now : Int) (asset : AssetContext) (exceptions : List RiskException)
    (acc : ℚ × List String × List String) (finding : Finding) :
    ℚ × List String × List String :=
  if finding.status ≠ .opened then acc
  else if has_approved_exception now finding.id exceptions then
    ⟨acc.1, acc.2.1 ++ ["exception_active:" ++ finding.id], acc.2.2⟩
  else
    let base := SEVERITY_BASE finding.severity
    let exploitability := 20 * finding.exploitability
    let exposure := EXPOSURE_WEIGHTS_env asset.environment +
      (if asset.internet_facing then EXPOSURE_WEIGHTS_internet_facing else 0)
    let blast := DATA_BLAST asset.data_classification
    let deduction := min finding.compensating_controls 30
    let finding_score := max 0 (base + exploitability + exposure + blast - deduction)
    ⟨acc.1 + finding_score,
     acc.2.1 ++ ["open_" ++ finding.severity.val ++ ":" ++ finding.id],
     acc.2.2 ++ [finding.evidence_uri]⟩

/-- `calculate_score` from `risk_engine.py`. -/
def calculate_score (now : Int) (findings : List Finding) (asset : AssetContext)
    (exceptions : List RiskException) : ℚ × List String × List String :=
  let res := findings.foldl (calc_step now asset exceptions) ⟨0, [], []⟩
  ⟨min res.1 100, dedupSort res.2.1, dedupSort res.2.2⟩

/-- Round-half-to-even to an integer (Python's `round` tie rule). -/
def roundHalfEven (q : ℚ) : Int :=
  let f : Int := ⌊q⌋
  let r : ℚ := q - f
  if r < 1/2 then f
  else if 1/2 < r then f + 1
  else if Even f then f else f + 1

/-- Python's `round(q, 2)`. -/
def round2 (q : ℚ) : ℚ := (roundHalfEven (q * 100) : ℚ) / 100

/-- `evaluate_gate` from `risk_engine.py`. -/
def evaluate_gate (now : Int) (findings : List Finding) (asset : AssetContext)
    (exceptions : List RiskException) : GateDecision :=
  let res := calculate_score now findings asset exceptions
  let score := res.1
  let reasons := res.2.1
  let evidence := res.2.2
  if 50 ≤ score then
    { result := .warn,
      score := round2 score,
      reasons := if reasons = [] then ["warn_threshold_reached"] else reasons,
      evidence := evidence,
      policy_version := POLICY_VERSION }
  else
    { result := .pass,
      score := round2 score,
      reasons := if reasons = [] then ["no_open_risks"] else reasons,
      evidence := evidence,
      policy_version := POLICY_VERSION }

/-! Spec-side definitions for the refinement claims about
`calculate_score`: these follow the wording of the specification (base
table, weight tables, considered findings, per-finding contribution and
reason), to be compared with the source-derived function above. -/

/-- Spec wording: base is critical=45, high=30, medium=18, low=8, info=3. -/
def spec_severity_base : Severity → ℚ
  | .critical => 45
  | .high => 30
  | .medium => 18
  | .low => 8
  | .info => 3

/-- Spec wording: environment weight is prod=12, staging=6, dev=2. -/
def spec_environment_weight : Environment → ℚ
  | .prod => 12
  | .staging => 6
  | .dev => 2

/-- Spec wording: data-classification weight is restricted=20,
confidential=15, internal=8, public=3. -/
def spec_blast_weight : DataClassification → ℚ
  | .restricted => 20
  | .confidential => 15
  | .internal => 8
  | .public => 3

/-- Spec wording: an exception is active for a finding iff `finding_id`
matches, `approved` is true, and `expires_at` normalized to UTC is
strictly later than the evaluation instant. -/
def spec_exception_active (now : Int) (e : RiskException) (fid : String) : Bool :=
  e.finding_id == fid && e.approved && decide (now < e.expires_at.toUTC)

/-- Some exception in the list is active for the finding id. -/
def spec_active (now : Int) (exceptions : List RiskException) (fid : String) : Bool :=
  exceptions.any fun e => spec_exception_active now e fid

/-- Spec wording: a finding is considered iff its status is `"open"` and
no active exception covers it. -/
def spec_considered (now : Int) (exceptions : List RiskException) (f : Finding) : Bool :=
  f.status == .opened && !(spec_active now exceptions f.id)

/-- Spec wording: `finding_score` = max(0, base + 20·exploitability +
environment weight + (12 if internet_facing) + blast weight −
min(compensating_controls, 30)). -/
def spec_finding_score (asset : AssetContext) (f : Finding) : ℚ :=
  max 0 (spec_severity_base f.severity + 20 * f.exploitability
    + spec_environment_weight asset.environment
    + (if asset.internet_facing then 12 else 0)
    + spec_blast_weight asset.data_classification
    - min f.compensating_controls 30)

/-- Spec wording: a considered finding contributes its `finding_score`,
every other finding contributes nothing. -/
def spec_contribution (now : Int) (asset : AssetContext)
    (exceptions : List RiskException) (f : Finding) : ℚ :=
  if spec_considered now exceptions f then spec_finding_score asset f else 0

/-- Spec wording: a non-open finding emits no reason; an open finding
covered by an active exception emits `exception_active:<id>` in place of
`open_<severity>:<id>`; a considered finding emits the latter. -/
def spec_reason_tag (now : Int) (exceptions : List RiskException) (f : Finding) :
    Option String :=
  if f.status ≠ .opened then none
  else if spec_active now exceptions f.id then some ("exception_active:" ++ f.id)
  else some ("open_" ++ f.severity.val ++ ":" ++ f.id)

/-- Spec wording: a considered finding appends its `evidence_uri`;
everything else appends nothing. -/
def spec_evidence_tag (now : Int) (exceptions : List RiskException) (f : Finding) :
    Option String :=
  if spec_considered now exceptions f then some f.evidence_uri else none

/-! Embedding of `queue.py`.  The queue is threaded in the source; here
its state is passed explicitly.  `uuid.uuid4()` is modelled by an
explicit `fresh_id` argument, `datetime.now` by an explicit `now`
argument, and the worker callable by an oracle `outcomes i` giving the
outcome of its `i`-th invocation (a Python worker may succeed or raise
differently on each call).  `self._executor.submit(self._run_job, ...)`
is modelled by the `created` outcome of `enqueue`: exactly the `created`
results are scheduled for execution. -/

/-- The job `status` strings of `queue.py` / `JobStatusResponse`. -/
inductive JobStatus where
  | queued
  | running
  | retrying
  | completed
  | failed
deriving DecidableEq

/-- `JobRecord` from `queue.py`; `π` is the payload type and `ρ` the
worker result type (`dict[str, Any]` in the source, opaque to the
queue). -/
structure JobRecord (π ρ : Type) where
  job_id : String
  status : JobStatus
  attempts : Nat
  max_attempts : Nat
  fn_name : String
  payload : π
  idempotency_key : Option String := none
  result : Option ρ := none
  error : Option String := none
  created_at : Int := 0
  finished_at : Option Int := none
deriving DecidableEq

/-- The state of a `JobQueue` from `queue.py`: configuration plus the
`_jobs` dict and `_idempotency_index` dict, modelled as association
lists in insertion order. -/
structure JobQueue (π ρ : Type) where
  max_attempts : Nat
  max_queue_size : Nat
  retention_seconds : Int
  jobs : List (String × JobRecord π ρ) := []
  idempotency_index : List (String × String) := []
deriving DecidableEq

variable {π ρ : Type}

/-- The expiry test of `_cleanup_locked`: a record is purged when it is
finished and `(now - finished_at).total_seconds() > retention_seconds`. -/
def job_expired (retention_seconds : Int) (now : Int) (r : JobRecord π ρ) : Bool :=
  match r.finished_at with
  | none => false
  | some t => decide (retention_seconds < now - t)

/-- `_cleanup_locked` from `queue.py`: drop every expired record from the
jobs table, and drop an idempotency entry when some expired record
carries its key. -/
def JobQueue.cleanup_locked (q : JobQueue π ρ) (now : Int) : JobQueue π ρ :=
  { q with
    jobs := q.jobs.filter fun p => !(job_expired q.retention_seconds now p.2),
    idempotency_index := q.idempotency_index.filter fun kv =>
      !((q.jobs.filter fun p => job_expired q.retention_seconds now p.2).any
          fun p => p.2.idempotency_key == some kv.1) }

/-- The possible outcomes of `enqueue`.  `created` is the branch that
also calls `self._executor.submit(self._run_job, record, worker)`:
exactly the `created` records are scheduled for execution.
`capacity_error` is the `RuntimeError("job_queue_capacity_exceeded")`
raise, and `index_error` the (unreachable) `KeyError` a dangling
idempotency entry would produce. -/
inductive EnqueueOutcome (π ρ : Type) where
  | existing (record : JobRecord π ρ)
  | created (record : JobRecord π ρ)
  | capacity_error
  | index_error
deriving DecidableEq

/-- The admission path of `enqueue` (after the idempotency lookup
missed): capacity check, record creation, registration.  Python's
`if idempotency_key:` is falsy for `None` and for the empty string, so
only a non-empty key is indexed. -/
def JobQueue.register (q₁ : JobQueue π ρ) (now : Int) (fresh_id fn_name : String)
    (payload : π) (idempotency_key : Option String) :
    EnqueueOutcome π ρ × JobQueue π ρ :=
  if q₁.max_queue_size ≤ q₁.jobs.length then (.capacity_error, q₁)
  else
    let record : JobRecord π ρ :=
      { job_id := fresh_id, status := .queued, attempts := 0,
        max_attempts := q₁.max_attempts, fn_name := fn_name, payload := payload,
        idempotency_key := idempotency_key, created_at := now }
    (.created record,
     { q₁ with
       jobs := q₁.jobs ++ [(fresh_id, record)],
       idempotency_index :=
         match idempotency_key with
         | some key =>
           if key.isEmpty then q₁.idempotency_index
           else q₁.idempotency_index ++ [(key, fresh_id)]
         | none => q₁.idempotency_index })

/-- The record `JobQueue.register` creates (spelled out for reuse in
statements about `enqueue`). -/
def mkJobRecord (q : JobQueue π ρ) (now : Int) (fresh_id fn_name : String)
    (payload : π) (k : String) : JobRecord π ρ :=
  { job_id := fresh_id, status := .queued, attempts := 0,
    max_attempts := q.max_attempts, fn_name := fn_name, payload := payload,
    idempotency_key := some k, created_at := now }

/-- `enqueue` from `queue.py`: opportunistic cleanup, idempotency-key
lookup (returning the existing record unchanged on a hit), then
admission. -/
def JobQueue.enqueue (q : JobQueue π ρ) (now : Int) (fresh_id fn_name : String)
    (payload : π) (idempotency_key : Option String) :
    EnqueueOutcome π ρ × JobQueue π ρ :=
  let q₁ := q.cleanup_locked now
  match idempotency_key with
  | some key =>
    if key.isEmpty then q₁.register now fresh_id fn_name payload idempotency_key
    else
      match q₁.idempotency_index.lookup key with
      | some existing_id =>
        match q₁.jobs.lookup existing_id with
        | some record => (.existing record, q₁)
        | none => (.index_error, q₁)
      | none => q₁.register now fresh_id fn_name payload idempotency_key
  | none => q₁.register now fresh_id fn_name payload idempotency_key

/-- The retry loop of `_run_job`, with explicit fuel.  The loop runs
while `attempts < max_attempts` and each iteration increments
`attempts`, so `max_attempts - attempts` is the exact number of
remaining iterations; `run_job` below instantiates the fuel with it.
Returns the final record, the number of worker invocations, and the
sequence of statuses assigned to the record (in order). -/
def run_job_loop (outcomes : Nat → Except String ρ) (now : Int) :
    Nat → JobRecord π ρ → JobRecord π ρ × Nat × List JobStatus
  | 0, record => (record, 0, [])
  | fuel + 1, record =>
    if record.attempts < record.max_attempts then
      let status1 := if record.attempts = 0 then JobStatus.running else JobStatus.retrying
      let r1 : JobRecord π ρ := { record with status := status1, attempts := record.attempts + 1 }
      match outcomes record.attempts with
      | .ok v =>
        ({ r1 with
            status := .completed, result := some v, error := none,
            finished_at := some now }, 1, [status1, .completed])
      | .error msg =>
        let r2 : JobRecord π ρ := { r1 with error := some msg }
        if r2.max_attempts ≤ r2.attempts then
          ({ r2 with status := .failed, finished_at := some now }, 1, [status1, .failed])
        else
          let rest := run_job_loop outcomes now fuel r2
          (rest.1, rest.2.1 + 1, status1 :: rest.2.2)
    else (record, 0, [])

/-- `_run_job` from `queue.py`.  `outcomes i` is the result of the
`i`-th call of `worker(record.payload)`: `.ok v` models a normal return,
`.error msg` models a raised exception with `str(exc) = msg` (every
exception is caught, so the model is a total function). -/
def run_job (outcomes : Nat → Except String ρ) (now : Int) (record : JobRecord π ρ) :
    JobRecord π ρ × Nat × List JobStatus :=
  run_job_loop outcomes now (record.max_attempts - record.attempts) record

/-- `get` from `queue.py`: opportunistic cleanup, then a plain lookup. -/
def JobQueue.get (q : JobQueue π ρ) (now : Int) (job_id : String) :
    Option (JobRecord π ρ) × JobQueue π ρ :=
  let q₁ := q.cleanup_locked now
  (q₁.jobs.lookup job_id, q₁)

/-- Models the executor thread's in-place mutation of the shared
`JobRecord` object: the table entry for `job_id` is replaced by the
mutated record. -/
def JobQueue.set_record (q : JobQueue π ρ) (job_id : String) (r : JobRecord π ρ) :
    JobQueue π ρ :=
  { q with jobs := q.jobs.map fun p => if p.1 = job_id then (p.1, r) else p }

/-- `JobStatusResponse` from `models.py` (fields relevant to the job
endpoint). -/
structure JobStatusResponse (ρ : Type) where
  job_id : String
  status : JobStatus
  attempts : Nat
  max_attempts : Nat
  idempotency_key : Option String := none
  result : Option ρ := none
  error : Option String := none
  created_at : Option Int := none
  finished_at : Option Int := none
deriving DecidableEq

/-- `get_job` from `main.py`: poll the queue; an unknown id produces a
response with status `"failed"`, `attempts = 0`,
`max_attempts = settings.max_job_retries` and `error = "job_not_found"`;
a known id copies the record's fields. -/
def get_job (q : JobQueue π ρ) (now : Int) (job_id : String)
    (max_job_retries : Nat) : JobStatusResponse ρ × JobQueue π ρ :=
  let res := q.get now job_id
  match res.1 with
  | none =>
    ({ job_id := job_id, status := .failed, attempts := 0,
       max_attempts := max_job_retries, error := some "job_not_found" }, res.2)
  | some record =>
    ({ job_id := record.job_id, status := record.status, attempts := record.attempts,
       max_attempts := record.max_attempts, idempotency_key := record.idempotency_key,
       result := record.result, error := record.error,
       created_at := some record.created_at, finished_at := record.finished_at }, res.2)

/-! Concrete inputs used by the witnesses below. -/

def wAsset : Asset :=
  { repo := "r", service := "svc", owner := "team", environment := "prod",
    criticality := "tier1", data_classification := "internal" }

def wFinding1 : Finding :=
  { id := "f1", source := "semgrep", type := "sast", severity := .high,
    asset := wAsset, evidence_uri := "s3://e1", first_seen := ⟨0, none⟩,
    last_seen := ⟨0, none⟩ }

def wFinding2 : Finding :=
  { id := "f2", source := "grype", type := "sca", severity := .low,
    asset := wAsset, evidence_uri := "s3://e2", first_seen := ⟨0, none⟩,
    last_seen := ⟨0, none⟩ }

def wCtx : AssetContext := {}

def wExc : RiskException :=
  { finding_id := "f1", owner := "alice", expires_at := ⟨100, none⟩, approved := true }

def wExcAware : RiskException :=
  { finding_id := "f9", owner := "bob", expires_at := ⟨100, some 10⟩, approved := true }

/-- Modelled from the claim's wording: the state machine
`queued → running → (retrying → running)* → (completed | failed)`, read
as a transition relation: a retry passes through `retrying` back to
`running`, and a terminal status is reached from `running`. -/
def claimed_step : JobStatus → JobStatus → Bool
  | .queued, .running => true
  | .running, .retrying => true
  | .retrying, .running => true
  | .running, .completed => true
  | .running, .failed => true
  | _, _ => false

/-- The transition relation the code's `_run_job` actually follows:
attempt 1 sets `running`, every later attempt sets `retrying` (never
`running` again), and a terminal status is reached from whichever of the
two the final attempt ran under. -/
def code_step : JobStatus → JobStatus → Bool
  | .queued, .running => true
  | .running, .retrying => true
  | .retrying, .retrying => true
  | .running, .completed => true
  | .running, .failed => true
  | .retrying, .completed => true
  | .retrying, .failed => true
  | _, _ => false

/-- A status sequence is a path of the given transition relation. -/
def is_path (step : JobStatus → JobStatus → Bool) : List JobStatus → Bool
  | [] => true
  | [_] => true
  | a :: b :: rest => step a b && is_path step (b :: rest)

def terminal_status (s : JobStatus) : Bool := s == .completed || s == .failed

/-- Terminal statuses appear only in last position: once terminal, no
further status is ever assigned. -/
def terminal_only_last : List JobStatus → Bool
  | [] => true
  | [_] => true
  | a :: b :: rest => !(terminal_status a) && terminal_only_last (b :: rest)

def is_created : EnqueueOutcome π ρ → Bool
  | .created _ => true
  | _ => false

def outcome_job_id : EnqueueOutcome π ρ → Option String
  | .existing r => some r.job_id
  | .created r => some r.job_id
  | .capacity_error => none
  | .index_error => none

/-- A worker oracle that raises on every invocation. -/
def wFailOutcomes : Nat → Except String Unit := fun _ => Except.error "boom"

def wMsgs : Nat → String := fun _ => "boom"

/-- A queued record with the default `max_job_retries = 3`. -/
def wJob : JobRecord Unit Unit :=
  { job_id := "j0", status := .queued, attempts := 0, max_attempts := 3,
    fn_name := "scanner_batch_pipeline", payload := () }

/-- A queued record under a `max_attempts = 0` configuration. -/
def wJob0 : JobRecord Unit Unit :=
  { job_id := "jz", status := .queued, attempts := 0, max_attempts := 0,
    fn_name := "scanner_batch_pipeline", payload := () }

/-- A queue holding the unfinished `wJob0`, configured with
`max_attempts = 0`. -/
def wQueue0 : JobQueue Unit Unit :=
  { max_attempts := 0, max_queue_size := 10, retention_seconds := 3600,
    jobs := [("jz", wJob0)] }

/-- An empty queue with the default configuration values
(`MAX_JOB_RETRIES = 3`, `MAX_JOB_QUEUE_SIZE = 1000`,
`JOB_RETENTION_SECONDS = 3600`). -/
def wQueueEmpty : JobQueue Unit Unit :=
  { max_attempts := 3, max_queue_size := 1000, retention_seconds := 3600 }

/-- C7 counterexample input: a worker that raises on the first call and
succeeds on the second. -/
def c7_outcomes : Nat → Except String Unit :=
  fun i => if i = 0 then Except.error "flaky" else Except.ok ()

def c7_record : JobRecord Unit Unit :=
  { job_id := "j1", status := .queued, attempts := 0, max_attempts := 2,
    fn_name := "scanner_batch_pipeline", payload := () }

/-- C5 counterexample input: a queue whose retention window is 0 seconds. -/
def c5_q0 : JobQueue Unit Unit :=
  { max_attempts := 1, max_queue_size := 10, retention_seconds := 0 }

/-- First enqueue with idempotency key `"k"` at instant 0. -/
def c5_first : EnqueueOutcome Unit Unit × JobQueue Unit Unit :=
  c5_q0.enqueue 0 "j1" "scanner_batch_pipeline" () (some "k")

/-- The record the first enqueue creates. -/
def c5_rec1 : JobRecord Unit Unit :=
  { job_id := "j1", status := .queued, attempts := 0, max_attempts := 1,
    fn_name := "scanner_batch_pipeline", payload := (), idempotency_key := some "k",
    created_at := 0 }

/-- The job then executes and completes at instant 0 (the executor
mutates the shared record in place). -/
def c5_q2 : JobQueue Unit Unit :=
  c5_first.2.set_record "j1" (run_job (fun _ => Except.ok ()) 0 c5_rec1).1

/-- Second enqueue with the same key `"k"` at instant 10: the completed
record is now past the retention window. -/
def c5_second : EnqueueOutcome Unit Unit × JobQueue Unit Unit :=
  c5_q2.enqueue 10 "j2" "scanner_batch_pipeline" () (some "k")

/-- C9 counterexample input: a record whose single attempt failed. -/
def c9_failed : JobRecord Unit Unit :=
  (run_job (fun _ => Except.error "boom") 0
    { job_id := "j1", status := .queued, attempts := 0, max_attempts := 1,
      fn_name := "scanner_batch_pipeline", payload := () }).1

/-- A queue holding the genuinely failed record. -/
def c9_queue : JobQueue Unit Unit :=
  { max_attempts := 1, max_queue_size := 10, retention_seconds := 3600,
    jobs := [("j1", c9_failed)] }

theorem has_approved_exception_eq_spec (now : Int) (fid : String)
    (exceptions : List RiskException) :
    has_approved_exception now fid exceptions = spec_active now exceptions fid := rfl

theorem severity_base_eq_spec (s : Severity) :
    SEVERITY_BASE s = spec_severity_base s := by cases s <;> rfl

theorem environment_weight_eq_spec (e : Environment) :
    EXPOSURE_WEIGHTS_env e = spec_environment_weight e := by cases e <;> rfl

theorem blast_weight_eq_spec (d : DataClassification) :
    DATA_BLAST d = spec_blast_weight d := by cases d <;> rfl

/-- One pass of the loop body rewritten through the spec-side per-finding
functions. -/
theorem calc_step_eq (now : Int) (asset : AssetContext)
    (exceptions : List RiskException) (acc : ℚ × List String × List String)
    (f : Finding) :
    calc_step now asset exceptions acc f =
      ⟨acc.1 + spec_contribution now asset exceptions f,
       acc.2.1 ++ (spec_reason_tag now exceptions f).toList,
       acc.2.2 ++ (spec_evidence_tag now exceptions f).toList⟩ := by
  by_cases hs : f.status = .opened
  · by_cases ha : spec_active now exceptions f.id = true
    · simp [calc_step, spec_contribution, spec_reason_tag, spec_evidence_tag,
        spec_considered, hs, ha, has_approved_exception_eq_spec]
    · simp [calc_step, spec_contribution, spec_reason_tag, spec_evidence_tag,
        spec_considered, hs, ha, has_approved_exception_eq_spec, spec_finding_score,
        severity_base_eq_spec, environment_weight_eq_spec, blast_weight_eq_spec,
        EXPOSURE_WEIGHTS_internet_facing]
      ring_nf
  · simp [calc_step, spec_contribution, spec_reason_tag, spec_evidence_tag,
      spec_considered, hs]

/-- The loop of `calculate_score`, run from an arbitrary accumulator,
computes the spec-side sum and tag lists. -/
theorem foldl_calc_step (now : Int) (asset : AssetContext)
    (exceptions : List RiskException) :
    ∀ (fs : List Finding) (t : ℚ) (rs es : List String),
      fs.foldl (calc_step now asset exceptions) ⟨t, rs, es⟩ =
        ⟨t + (fs.map (spec_contribution now asset exceptions)).sum,
         rs ++ fs.filterMap (spec_reason_tag now exceptions),
         es ++ fs.filterMap (spec_evidence_tag now exceptions)⟩ := by
  intro fs
  induction fs with
  | nil => intro t rs es; simp
  | cons f fs ih =>
    intro t rs es
    rw [List.foldl_cons, calc_step_eq, ih]
    simp [List.filterMap_cons, add_assoc]
    constructor
    · cases h : spec_reason_tag now exceptions f <;> simp [h]
    · cases h : spec_evidence_tag now exceptions f <;> simp [h]

/-- `calculate_score` in closed form: the capped sum of the spec-side
per-finding contributions, plus the deduplicated sorted tag lists. -/
theorem calculate_score_eq (now : Int) (fs : List Finding) (asset : AssetContext)
    (exceptions : List RiskException) :
    calculate_score now fs asset exceptions =
      ⟨min ((fs.map (spec_contribution now asset exceptions)).sum) 100,
       dedupSort (fs.filterMap (spec_reason_tag now exceptions)),
       dedupSort (fs.filterMap (spec_evidence_tag now exceptions))⟩ := by
  unfold calculate_score
  rw [foldl_calc_step]
  simp

theorem perm_toFinset {l₁ l₂ : List String} (h : l₁.Perm l₂) :
    l₁.toFinset = l₂.toFinset :=
  Finset.ext fun a => by simp [List.mem_toFinset, h.mem_iff]

theorem dedupSort_perm {l₁ l₂ : List String} (h : l₁.Perm l₂) :
    dedupSort l₁ = dedupSort l₂ := by
  unfold dedupSort; rw [perm_toFinset h]

theorem dedupSort_sorted (xs : List String) : (dedupSort xs).Sorted (· ≤ ·) :=
  Finset.sort_sorted _ _

theorem dedupSort_nodup (xs : List String) : (dedupSort xs).Nodup :=
  Finset.sort_nodup _ _

theorem spec_contribution_nonneg (now : Int) (asset : AssetContext)
    (exceptions : List RiskException) (f : Finding) :
    0 ≤ spec_contribution now asset exceptions f := by
  unfold spec_contribution
  split
  · exact le_max_left _ _
  · exact le_refl 0

/-- C1: `calculate_score` considers exactly the open findings with no
active exception; each contributes max(0, base + 20·exploitability +
environment weight + internet-facing weight + blast weight −
min(compensating_controls, 30)) with the spec's weight tables; a non-open
finding contributes nothing and emits no reason; the returned score is
the unclamped sum capped at 100. -/
theorem C1_score_formula (now : Int) (findings : List Finding) (asset : AssetContext)
    (exceptions : List RiskException) :
    (calculate_score now findings asset exceptions).1 =
      min ((findings.map (spec_contribution now asset exceptions)).sum) 100
    ∧ (calculate_score now findings asset exceptions).2.1 =
      dedupSort (findings.filterMap (spec_reason_tag now exceptions)) := by
  rw [calculate_score_eq]
  exact ⟨rfl, rfl⟩

/-- C2: the score lies in [0,100]; the whole result of `calculate_score`
is invariant under permutation of the findings list; the returned reasons
and evidence are duplicate-free and sorted (String's order is
lexicographic on code points). -/
theorem C2_bounds_and_permutation (now : Int) (fs₁ fs₂ : List Finding)
    (asset : AssetContext) (exceptions : List RiskException) (h : fs₁.Perm fs₂) :
    0 ≤ (calculate_score now fs₁ asset exceptions).1
    ∧ (calculate_score now fs₁ asset exceptions).1 ≤ 100
    ∧ calculate_score now fs₁ asset exceptions = calculate_score now fs₂ asset exceptions
    ∧ (calculate_score now fs₁ asset exceptions).2.1.Sorted (· ≤ ·)
    ∧ (calculate_score now fs₁ asset exceptions).2.1.Nodup
    ∧ (calculate_score now fs₁ asset exceptions).2.2.Sorted (· ≤ ·)
    ∧ (calculate_score now fs₁ asset exceptions).2.2.Nodup := by
  refine ⟨?_, ?_, ?_, ?_, ?_, ?_, ?_⟩
  · rw [calculate_score_eq]
    refine le_min (List.sum_nonneg ?_) (by norm_num)
    intro x hx
    obtain ⟨f, _, rfl⟩ := List.mem_map.mp hx
    exact spec_contribution_nonneg now asset exceptions f
  · rw [calculate_score_eq]
    exact min_le_right _ _
  · rw [calculate_score_eq, calculate_score_eq]
    rw [(h.map (spec_contribution now asset exceptions)).sum_eq,
      dedupSort_perm (h.filterMap (spec_reason_tag now exceptions)),
      dedupSort_perm (h.filterMap (spec_evidence_tag now exceptions))]
  · rw [calculate_score_eq]; exact dedupSort_sorted _
  · rw [calculate_score_eq]; exact dedupSort_nodup _
  · rw [calculate_score_eq]; exact dedupSort_sorted _
  · rw [calculate_score_eq]; exact dedupSort_nodup _

/-- C3: activation of a `RiskException` is exactly id match + approval +
UTC-normalized expiry strictly after the instant (an existential over the
list, so any one active exception suffices); an active exception on an
open finding zeroes its score contribution and replaces its reason with
`exception_active:<id>`; unapproved or expired exceptions leave the
finding's result as if no exception were given. -/
theorem C3_exception_semantics (now : Int) (fid : String)
    (exceptions : List RiskException) (f : Finding) (fs₁ fs₂ : List Finding)
    (asset : AssetContext) :
    (has_approved_exception now fid exceptions = true ↔
      ∃ e ∈ exceptions, e.finding_id = fid ∧ e.approved = true ∧ now < e.expires_at.toUTC)
    ∧ (f.status = .opened → has_approved_exception now f.id exceptions = true →
        (calculate_score now (fs₁ ++ f :: fs₂) asset exceptions).1 =
          (calculate_score now (fs₁ ++ fs₂) asset exceptions).1)
    ∧ (f.status = .opened → has_approved_exception now f.id exceptions = true →
        calculate_score now [f] asset exceptions = ⟨0, ["exception_active:" ++ f.id], []⟩)
    ∧ (f.status = .opened → has_approved_exception now f.id exceptions = false →
        calculate_score now [f] asset exceptions = calculate_score now [f] asset []) := by
  refine ⟨?_, ?_, ?_, ?_⟩
  · simp only [has_approved_exception, List.any_eq_true, Bool.and_eq_true,
      beq_iff_eq, decide_eq_true_eq]
    constructor
    · rintro ⟨e, he, ⟨⟨h1, h2⟩, h3⟩⟩
      exact ⟨e, he, h1, h2, h3⟩
    · rintro ⟨e, he, h1, h2, h3⟩
      exact ⟨e, he, ⟨⟨h1, h2⟩, h3⟩⟩
  · intro hs ha
    rw [has_approved_exception_eq_spec] at ha
    rw [calculate_score_eq, calculate_score_eq]
    simp [spec_contribution, spec_considered, hs, ha]
  · intro hs ha
    rw [has_approved_exception_eq_spec] at ha
    rw [calculate_score_eq]
    simp [spec_contribution, spec_considered, spec_reason_tag, spec_evidence_tag,
      hs, ha, dedupSort]
  · intro hs ha
    rw [has_approved_exception_eq_spec] at ha
    rw [calculate_score_eq, calculate_score_eq]
    have h0 : spec_active now [] f.id = false := rfl
    simp [spec_contribution, spec_considered, spec_reason_tag, spec_evidence_tag,
      hs, ha, h0]

/-- C4: the gate result is `warn` exactly when the unrounded score is at
least 50 and `pass` otherwise, never `block`; the emitted score is the
unrounded score rounded to two decimals. -/
theorem C4_gate_policy (now : Int) (findings : List Finding) (asset : AssetContext)
    (exceptions : List RiskException) :
    ((evaluate_gate now findings asset exceptions).result = .warn ↔
      50 ≤ (calculate_score now findings asset exceptions).1)
    ∧ ((evaluate_gate now findings asset exceptions).result = .pass ↔
      (calculate_score now findings asset exceptions).1 < 50)
    ∧ (evaluate_gate now findings asset exceptions).result ≠ .block
    ∧ (evaluate_gate now findings asset exceptions).score =
      round2 (calculate_score now findings asset exceptions).1 := by
  unfold evaluate_gate
  by_cases h : 50 ≤ (calculate_score now findings asset exceptions).1
  · simp [h, not_lt.mpr h]
  · simp [h, not_le.mp h]

theorem has_approved_exception_time_congr (t₁ t₂ : Int) (fid : String) :
    ∀ (exceptions : List RiskException),
      (∀ e ∈ exceptions, (t₁ < e.expires_at.toUTC ↔ t₂ < e.expires_at.toUTC)) →
      has_approved_exception t₁ fid exceptions = has_approved_exception t₂ fid exceptions := by
  intro exceptions
  induction exceptions with
  | nil => intro _; rfl
  | cons e tl ih =>
    intro h
    have hd : decide (t₁ < e.expires_at.toUTC) = decide (t₂ < e.expires_at.toUTC) :=
      decide_eq_decide.mpr (h e (List.mem_cons_self e tl))
    have ht := ih fun x hx => h x (List.mem_cons_of_mem e hx)
    simp only [has_approved_exception, List.any_cons] at ht ⊢
    rw [hd, ht]

/-- C8: `evaluate_gate` is a pure function of its inputs; the clock
enters only through the strict expiry comparisons, so any two evaluation
instants on which every listed exception's expiry comparison agrees give
identical decisions (for identical findings, context, exceptions). -/
theorem C8_deterministic (t₁ t₂ : Int) (findings : List Finding)
    (asset : AssetContext) (exceptions : List RiskException)
    (h : ∀ e ∈ exceptions, (t₁ < e.expires_at.toUTC ↔ t₂ < e.expires_at.toUTC)) :
    evaluate_gate t₁ findings asset exceptions = evaluate_gate t₂ findings asset exceptions := by
  have hstep : calc_step t₁ asset exceptions = calc_step t₂ asset exceptions := by
    funext acc f
    unfold calc_step
    rw [has_approved_exception_time_congr t₁ t₂ f.id exceptions h]
  have hcalc : calculate_score t₁ findings asset exceptions =
      calculate_score t₂ findings asset exceptions := by
    unfold calculate_score; rw [hstep]
  unfold evaluate_gate
  rw [hcalc]

theorem C2_witness :
    List.Perm [wFinding1, wFinding2] [wFinding2, wFinding1]
    ∧ calculate_score 0 [wFinding1, wFinding2] wCtx [] =
        calculate_score 0 [wFinding2, wFinding1] wCtx [] :=
  ⟨List.Perm.swap wFinding2 wFinding1 [],
   (C2_bounds_and_permutation 0 [wFinding1, wFinding2] [wFinding2, wFinding1] wCtx []
      (List.Perm.swap wFinding2 wFinding1 [])).2.2.1⟩

theorem C3_witness :
    wFinding1.status = .opened
    ∧ has_approved_exception 0 wFinding1.id [wExc] = true
    ∧ calculate_score 0 [wFinding1] wCtx [wExc] = ⟨0, ["exception_active:f1"], []⟩ :=
  ⟨rfl, by decide,
   (C3_exception_semantics 0 "f1" [wExc] wFinding1 [] [] wCtx).2.2.1 rfl (by decide)⟩

theorem C8_witness :
    (∀ e ∈ [wExcAware], ((0 : Int) < e.expires_at.toUTC ↔ (1 : Int) < e.expires_at.toUTC))
    ∧ evaluate_gate 0 [wFinding1] wCtx [wExcAware] =
        evaluate_gate 1 [wFinding1] wCtx [wExcAware] :=
  ⟨by decide, C8_deterministic 0 1 [wFinding1] wCtx [wExcAware] (by decide)⟩

theorem cleanup_locked_max_attempts (q : JobQueue π ρ) (now : Int) :
    (q.cleanup_locked now).max_attempts = q.max_attempts := rfl

theorem cleanup_locked_max_queue_size (q : JobQueue π ρ) (now : Int) :
    (q.cleanup_locked now).max_queue_size = q.max_queue_size := rfl

theorem cleanup_locked_retention (q : JobQueue π ρ) (now : Int) :
    (q.cleanup_locked now).retention_seconds = q.retention_seconds := rfl

theorem cleanup_locked_jobs (q : JobQueue π ρ) (now : Int) :
    (q.cleanup_locked now).jobs =
      q.jobs.filter fun p => !(job_expired q.retention_seconds now p.2) := rfl

theorem cleanup_locked_index (q : JobQueue π ρ) (now : Int) :
    (q.cleanup_locked now).idempotency_index =
      q.idempotency_index.filter fun kv =>
        !((q.jobs.filter fun p => job_expired q.retention_seconds now p.2).any
            fun p => p.2.idempotency_key == some kv.1) := rfl

theorem lookup_filter_none {β : Type} (p : String × β → Bool) :
    ∀ (l : List (String × β)) (a : String),
      l.lookup a = none → (l.filter p).lookup a = none := by
  intro l
  induction l with
  | nil => intro a _; rfl
  | cons x tl ih =>
    intro a h
    obtain ⟨k, b⟩ := x
    cases hkb : (a == k) with
    | true => simp [List.lookup, hkb] at h
    | false =>
      simp only [List.lookup, hkb] at h
      cases hp : p (k, b) with
      | true => simp [List.filter_cons, hp, List.lookup, hkb, ih a h]
      | false => simp [List.filter_cons, hp, ih a h]

theorem lookup_filter_keep {β : Type} (p : String × β → Bool) :
    ∀ (l : List (String × β)) (a : String) (b : β),
      l.lookup a = some b → p (a, b) = true → (l.filter p).lookup a = some b := by
  intro l
  induction l with
  | nil => intro a b h _; simp [List.lookup] at h
  | cons x tl ih =>
    intro a b h hp
    obtain ⟨k, c⟩ := x
    cases hkb : (a == k) with
    | true =>
      have hk : a = k := eq_of_beq hkb
      simp only [List.lookup, hkb] at h
      have hc : c = b := by injection h
      subst hk; subst hc
      simp [List.filter_cons, hp, List.lookup]
    | false =>
      simp only [List.lookup, hkb] at h
      cases hq : p (k, c) with
      | true => simp [List.filter_cons, hq, List.lookup, hkb, ih a b h hp]
      | false => simp [List.filter_cons, hq, ih a b h hp]

theorem lookup_append_of_none {β : Type} :
    ∀ (l₁ l₂ : List (String × β)) (a : String),
      l₁.lookup a = none → (l₁ ++ l₂).lookup a = l₂.lookup a := by
  intro l₁
  induction l₁ with
  | nil => intro l₂ a _; rfl
  | cons x tl ih =>
    intro l₂ a h
    obtain ⟨k, b⟩ := x
    cases hkb : (a == k) with
    | true => simp [List.lookup, hkb] at h
    | false =>
      simp only [List.lookup, hkb] at h
      simp only [List.cons_append, List.lookup, hkb]
      exact ih l₂ a h

/-- C9 counterexample: with an unknown job id, `get_job` answers with
`status = "failed"` — the same member of the ordinary status enumeration
that a genuinely failed job reports — so the status field is not a
dedicated "not found" sentinel and cannot by itself distinguish the two
cases. -/
theorem C9_counterexample :
    (get_job c9_queue 0 "ghost" 3).1.status = JobStatus.failed
    ∧ (get_job c9_queue 0 "j1" 3).1.status = JobStatus.failed
    ∧ c9_failed.status = JobStatus.failed :=
  ⟨rfl, rfl, rfl⟩

/-- C9 amended: polling an unknown job id returns a normal
`JobStatusResponse` rather than raising an error; the "not found"
sentinel is carried in the `error` field (`"job_not_found"`, with
`attempts = 0`), while the `status` field is set to `"failed"`, one of
the ordinary job statuses. -/
theorem C9_not_found_response (q : JobQueue π ρ) (now : Int) (job_id : String)
    (m : Nat) (h : (q.cleanup_locked now).jobs.lookup job_id = none) :
    (get_job q now job_id m).1 =
      { job_id := job_id, status := .failed, attempts := 0, max_attempts := m,
        idempotency_key := none, result := none, error := some "job_not_found",
        created_at := none, finished_at := none } := by
  simp [get_job, JobQueue.get, h]

theorem C9_witness :
    (wQueueEmpty.cleanup_locked 0).jobs.lookup "nope" = none
    ∧ (get_job wQueueEmpty 0 "nope" 3).1 =
      { job_id := "nope", status := .failed, attempts := 0, max_attempts := 3,
        idempotency_key := none, result := none, error := some "job_not_found",
        created_at := none, finished_at := none } :=
  ⟨rfl, C9_not_found_response wQueueEmpty 0 "nope" 3 rfl⟩

/-- C10: under `max_attempts = 0` the loop guard `attempts <
max_attempts` is false at entry, so the worker is never invoked, no
status is ever assigned (the record stays `"queued"` with `finished_at =
none`), `enqueue` nevertheless admits and schedules such jobs, and
retention cleanup never deletes an unfinished record, which therefore
keeps counting against queue capacity forever. -/
theorem C10_zero_max_attempts (outcomes : Nat → Except String ρ) (now t : Int)
    (r : JobRecord π ρ) (hm : r.max_attempts = 0)
    (q : JobQueue π ρ) (fresh_id fn_name : String) (payload : π)
    (hqm : q.max_attempts = 0)
    (hcap : ¬ q.max_queue_size ≤ (q.cleanup_locked now).jobs.length)
    (id : String) (r' : JobRecord π ρ)
    (hlook : q.jobs.lookup id = some r') (hfin : r'.finished_at = none) :
    run_job outcomes now r = (r, 0, [])
    ∧ (∃ rec, (q.enqueue now fresh_id fn_name payload none).1 = .created rec
        ∧ rec.status = .queued ∧ rec.max_attempts = 0 ∧ rec.finished_at = none)
    ∧ (q.cleanup_locked t).jobs.lookup id = some r' := by
  refine ⟨?_, ?_, ?_⟩
  · unfold run_job
    rw [hm, Nat.zero_sub]
    rfl
  · refine ⟨{ job_id := fresh_id, status := .queued, attempts := 0,
              max_attempts := q.max_attempts, fn_name := fn_name, payload := payload,
              idempotency_key := none, created_at := now }, ?_, rfl, hqm, rfl⟩
    simp [JobQueue.enqueue, JobQueue.register, cleanup_locked_max_queue_size,
      cleanup_locked_max_attempts, hcap]
  · exact lookup_filter_keep _ q.jobs id r' hlook (by simp [job_expired, hfin])

theorem C10_witness :
    wJob0.max_attempts = 0
    ∧ wQueue0.max_attempts = 0
    ∧ wQueue0.jobs.lookup "jz" = some wJob0
    ∧ wJob0.finished_at = none
    ∧ run_job wFailOutcomes 0 wJob0 = (wJob0, 0, [])
    ∧ (wQueue0.cleanup_locked 99999).jobs.lookup "jz" = some wJob0 :=
  ⟨rfl, rfl, rfl, rfl,
   (C10_zero_max_attempts wFailOutcomes 0 99999 wJob0 rfl wQueue0 "f" "g" () rfl
      (by decide) "jz" wJob0 rfl rfl).1,
   (C10_zero_max_attempts wFailOutcomes 0 99999 wJob0 rfl wQueue0 "f" "g" () rfl
      (by decide) "jz" wJob0 rfl rfl).2.2⟩

/-- Under a worker that raises on every call, the retry loop runs to
exhaustion: the record ends `failed` with `attempts = max_attempts`, the
last failure message recorded and `finished_at` stamped, and the worker
is invoked once per remaining attempt. -/
theorem run_job_loop_all_fail (outcomes : Nat → Except String ρ) (msgs : Nat → String)
    (hout : ∀ i, outcomes i = Except.error (msgs i)) (now : Int) :
    ∀ (fuel : Nat) (r : JobRecord π ρ),
      r.max_attempts - r.attempts = fuel → r.attempts < r.max_attempts →
      (run_job_loop outcomes now fuel r).1 =
        { r with status := .failed, attempts := r.max_attempts,
                 error := some (msgs (r.max_attempts - 1)), finished_at := some now }
      ∧ (run_job_loop outcomes now fuel r).2.1 = r.max_attempts - r.attempts := by
  intro fuel
  induction fuel with
  | zero => intro r hf hlt; omega
  | succ fuel ih =>
    intro r hf hlt
    by_cases hterm : r.max_attempts ≤ r.attempts + 1
    · have ha : r.max_attempts - 1 = r.attempts := by omega
      have h2 : r.attempts + 1 = r.max_attempts := by omega
      constructor
      · simp only [run_job_loop, hlt, if_true, hout r.attempts]
        simp [hterm, ha, h2]
      · simp only [run_job_loop, hlt, if_true, hout r.attempts]
        simp [hterm]
        omega
    · have hf2 : r.max_attempts - (r.attempts + 1) = fuel := by omega
      have hlt2 : r.attempts + 1 < r.max_attempts := by omega
      obtain ⟨ihl, ihr⟩ :=
        ih { r with
              status := if r.attempts = 0 then JobStatus.running else JobStatus.retrying,
              attempts := r.attempts + 1,
              error := some (msgs r.attempts) } hf2 hlt2
      constructor
      · simp only [run_job_loop, hlt, if_true, hout r.attempts]
        simp only [hterm, if_false]
        exact ihl
      · simp only [run_job_loop, hlt, if_true, hout r.attempts]
        simp only [hterm, if_false]
        rw [ihr]
        show (r.max_attempts - (r.attempts + 1)) + 1 = r.max_attempts - r.attempts
        omega

/-- C6: with a worker that raises on every attempt and at least one
attempt configured, the worker is invoked exactly `max_attempts` times,
the record ends in terminal `failed` with the last failure's description
in `error` and `finished_at` stamped.  (Worker exceptions are modelled
as `.error` outcomes precisely because `_run_job` catches every
exception: the loop is a total function and nothing propagates.) -/
theorem C6_retry_bound (outcomes : Nat → Except String ρ) (msgs : Nat → String)
    (hout : ∀ i, outcomes i = Except.error (msgs i)) (now : Int)
    (r : JobRecord π ρ) (h0 : r.attempts = 0) (hm : 1 ≤ r.max_attempts) :
    (run_job outcomes now r).2.1 = r.max_attempts
    ∧ (run_job outcomes now r).1.status = .failed
    ∧ (run_job outcomes now r).1.attempts = r.max_attempts
    ∧ (run_job outcomes now r).1.error = some (msgs (r.max_attempts - 1))
    ∧ (run_job outcomes now r).1.finished_at = some now := by
  have hlt : r.attempts < r.max_attempts := by omega
  obtain ⟨hl, hr⟩ :=
    run_job_loop_all_fail outcomes msgs hout now (r.max_attempts - r.attempts) r rfl hlt
  unfold run_job
  refine ⟨by rw [hr]; omega, ?_, ?_, ?_, ?_⟩ <;> rw [hl]

theorem C6_witness :
    (∀ i, wFailOutcomes i = Except.error (wMsgs i))
    ∧ wJob.attempts = 0 ∧ 1 ≤ wJob.max_attempts
    ∧ (run_job wFailOutcomes 0 wJob).2.1 = wJob.max_attempts
    ∧ (run_job wFailOutcomes 0 wJob).1.status = .failed
    ∧ (run_job wFailOutcomes 0 wJob).1.error = some "boom" :=
  ⟨fun _ => rfl, rfl, by decide,
   (C6_retry_bound wFailOutcomes wMsgs (fun _ => rfl) 0 wJob rfl (by decide)).1,
   (C6_retry_bound wFailOutcomes wMsgs (fun _ => rfl) 0 wJob rfl (by decide)).2.1,
   (C6_retry_bound wFailOutcomes wMsgs (fun _ => rfl) 0 wJob rfl (by decide)).2.2.2.1⟩

/-- Every status sequence `_run_job` assigns is a path of `code_step`,
and a terminal status is only ever assigned last. -/
theorem run_job_loop_path (outcomes : Nat → Except String ρ) (now : Int) :
    ∀ (fuel : Nat) (r : JobRecord π ρ),
      (r.attempts = 0 → r.status = .queued) →
      (r.attempts ≠ 0 → r.status = .running ∨ r.status = .retrying) →
      is_path code_step (r.status :: (run_job_loop outcomes now fuel r).2.2) = true
      ∧ terminal_only_last (r.status :: (run_job_loop outcomes now fuel r).2.2) = true := by
  intro fuel
  induction fuel with
  | zero => intro r _ _; exact ⟨rfl, rfl⟩
  | succ fuel ih =>
    intro r h0 h1
    by_cases hlt : r.attempts < r.max_attempts
    · have hstat : r.status = .queued ∨ r.status = .running ∨ r.status = .retrying := by
        by_cases hz : r.attempts = 0
        · exact Or.inl (h0 hz)
        · exact Or.inr (h1 hz)
      cases houtc : outcomes r.attempts with
      | ok v =>
        simp only [run_job_loop, hlt, if_true, houtc]
        by_cases hz : r.attempts = 0
        · rw [h0 hz]
          simp [hz, is_path, terminal_only_last, code_step, terminal_status]
        · rcases h1 hz with h | h <;> rw [h] <;>
            simp [hz, is_path, terminal_only_last, code_step, terminal_status]
      | error msg =>
        by_cases hterm : r.max_attempts ≤ r.attempts + 1
        · simp only [run_job_loop, hlt, if_true, houtc, hterm, if_true]
          by_cases hz : r.attempts = 0
          · rw [h0 hz]
            simp [hz, is_path, terminal_only_last, code_step, terminal_status]
          · rcases h1 hz with h | h <;> rw [h] <;>
              simp [hz, is_path, terminal_only_last, code_step, terminal_status]
        · simp only [run_job_loop, hlt, if_true, houtc, hterm, if_false]
          obtain ⟨ihp, iht⟩ :=
            ih { r with
                  status := if r.attempts = 0 then JobStatus.running else JobStatus.retrying,
                  attempts := r.attempts + 1,
                  error := some msg }
              (by intro h; simp at h) (by intro _; by_cases hz : r.attempts = 0 <;> simp [hz])
          constructor
          · show (code_step r.status
                (if r.attempts = 0 then JobStatus.running else JobStatus.retrying)
              && is_path code_step
                ((if r.attempts = 0 then JobStatus.running else JobStatus.retrying) ::
                  (run_job_loop outcomes now fuel _).2.2)) = true
            rw [Bool.and_eq_true]
            refine ⟨?_, ihp⟩
            by_cases hz : r.attempts = 0
            · rw [h0 hz]; simp [hz, code_step]
            · rcases h1 hz with h | h <;> rw [h] <;> simp [hz, code_step]
          · show (!(terminal_status r.status)
              && terminal_only_last
                ((if r.attempts = 0 then JobStatus.running else JobStatus.retrying) ::
                  (run_job_loop outcomes now fuel _).2.2)) = true
            rw [Bool.and_eq_true]
            refine ⟨?_, iht⟩
            rcases hstat with h | h | h <;> rw [h] <;> rfl
    · simp only [run_job_loop, hlt, if_false]
      exact ⟨rfl, rfl⟩

/-- C7 counterexample: a worker failing once then succeeding, with
`max_attempts = 2`, yields the status sequence
queued → running → retrying → completed.  The step
retrying → completed is not a transition of the claimed machine
`queued → running → (retrying → running)* → (completed | failed)`:
the code never returns to `running` after a retry. -/
theorem C7_counterexample :
    c7_record.status :: (run_job c7_outcomes 0 c7_record).2.2 =
      [JobStatus.queued, .running, .retrying, .completed]
    ∧ is_path claimed_step
        (c7_record.status :: (run_job c7_outcomes 0 c7_record).2.2) = false
    ∧ claimed_step .retrying .completed = false :=
  ⟨rfl, rfl, rfl⟩

/-- C7 amended: a job's status sequence follows
queued → running → retrying* → (completed | failed): the first attempt
sets `running`, every further attempt sets `retrying` (never `running`
again), a terminal status is assigned only as the last status, and
retention cleanup only deletes table entries, never alters a record. -/
theorem C7_status_machine (outcomes : Nat → Except String ρ) (now : Int)
    (r : JobRecord π ρ) (hq : r.status = .queued) (h0 : r.attempts = 0)
    (q : JobQueue π ρ) (t : Int) :
    is_path code_step (r.status :: (run_job outcomes now r).2.2) = true
    ∧ terminal_only_last (r.status :: (run_job outcomes now r).2.2) = true
    ∧ ∀ p ∈ (q.cleanup_locked t).jobs, p ∈ q.jobs := by
  obtain ⟨hp, ht⟩ :=
    run_job_loop_path outcomes now (r.max_attempts - r.attempts) r (fun _ => hq)
      (fun h => absurd h0 h)
  refine ⟨hp, ht, ?_⟩
  intro p hp'
  rw [cleanup_locked_jobs] at hp'
  exact List.mem_of_mem_filter hp'

theorem C7_witness :
    c7_record.status = .queued ∧ c7_record.attempts = 0
    ∧ is_path code_step
        (c7_record.status :: (run_job c7_outcomes 0 c7_record).2.2) = true
    ∧ terminal_only_last
        (c7_record.status :: (run_job c7_outcomes 0 c7_record).2.2) = true :=
  ⟨rfl, rfl,
   (C7_status_machine c7_outcomes 0 c7_record rfl rfl wQueueEmpty 0).1,
   (C7_status_machine c7_outcomes 0 c7_record rfl rfl wQueueEmpty 0).2.1⟩

/-- C5 counterexample: with `retention_seconds = 0`, enqueue key `"k"`
(creating job `"j1"`), let the job run to completion at instant 0, and
enqueue the same key again at instant 10.  The cleanup at the head of
the second `enqueue` purges the finished record and its idempotency
entry, so the second call returns a freshly `created` (and scheduled)
record `"j2"` instead of the existing `"j1"` — the worker can execute
twice for one key once the first record ages out of retention. -/
theorem C5_counterexample :
    c5_first.1 = .created c5_rec1
    ∧ is_created c5_second.1 = true
    ∧ outcome_job_id c5_second.1 = some "j2"
    ∧ outcome_job_id c5_first.1 = some "j1" :=
  ⟨rfl, rfl, rfl, rfl⟩

/-- `enqueue` with a fresh non-empty key: a record is created,
registered under the key, and scheduled. -/
theorem enqueue_miss (q : JobQueue π ρ) (now : Int) (f fn : String) (p : π)
    (k : String) (hke : k.isEmpty = false)
    (hmiss : (q.cleanup_locked now).idempotency_index.lookup k = none)
    (hcap : ¬ q.max_queue_size ≤ (q.cleanup_locked now).jobs.length) :
    q.enqueue now f fn p (some k) =
      (.created (mkJobRecord q now f fn p k),
       { q.cleanup_locked now with
          jobs := (q.cleanup_locked now).jobs ++ [(f, mkJobRecord q now f fn p k)],
          idempotency_index :=
            (q.cleanup_locked now).idempotency_index ++ [(k, f)] }) := by
  simp only [JobQueue.enqueue, hke, Bool.false_eq_true, if_false, hmiss,
    JobQueue.register, cleanup_locked_max_queue_size]
  rw [if_neg hcap]
  rfl

/-- `enqueue` with a non-empty key whose index entry points at a live
record: the existing record is returned unchanged and the only state
change is the opportunistic cleanup. -/
theorem enqueue_hit (q : JobQueue π ρ) (now : Int) (f fn : String) (p : π)
    (k : String) (hke : k.isEmpty = false) (jid : String) (r : JobRecord π ρ)
    (hidx : (q.cleanup_locked now).idempotency_index.lookup k = some jid)
    (hjob : (q.cleanup_locked now).jobs.lookup jid = some r) :
    q.enqueue now f fn p (some k) = (.existing r, q.cleanup_locked now) := by
  simp only [JobQueue.enqueue, hke, Bool.false_eq_true, if_false, hidx, hjob]

/-- C5 amended: two `enqueue` calls with the same (non-empty) idempotency
key, where the first admits a fresh record and that record is still
present (it has not been purged by retention cleanup — it is unfinished
here, so no cleanup can remove it) at the second call: the second call
returns the very record the first call created (same `job_id`),
unchanged, performs no state change beyond opportunistic cleanup, and
schedules nothing (its outcome is `existing`, not `created`). -/
theorem C5_idempotent_requeue (q : JobQueue π ρ) (now₁ now₂ : Int)
    (f₁ f₂ fn fn2 : String) (p p2 : π) (k : String)
    (hke : k.isEmpty = false)
    (hmiss : (q.cleanup_locked now₁).idempotency_index.lookup k = none)
    (hcap : ¬ q.max_queue_size ≤ (q.cleanup_locked now₁).jobs.length)
    (hfresh : (q.cleanup_locked now₁).jobs.lookup f₁ = none)
    (hnokey : ∀ pr ∈ (q.cleanup_locked now₁).jobs, pr.2.idempotency_key ≠ some k) :
    (q.enqueue now₁ f₁ fn p (some k)).1 = .created (mkJobRecord q now₁ f₁ fn p k)
    ∧ (mkJobRecord q now₁ f₁ fn p k).job_id = f₁
    ∧ (mkJobRecord q now₁ f₁ fn p k).finished_at = none
    ∧ (q.enqueue now₁ f₁ fn p (some k)).2.enqueue now₂ f₂ fn2 p2 (some k) =
        (.existing (mkJobRecord q now₁ f₁ fn p k),
         (q.enqueue now₁ f₁ fn p (some k)).2.cleanup_locked now₂) := by
  have he1 := enqueue_miss q now₁ f₁ fn p k hke hmiss hcap
  refine ⟨by rw [he1], rfl, rfl, ?_⟩
  rw [he1]
  apply enqueue_hit
  · exact hke
  · -- the idempotency entry (k, f₁) survives the cleanup at the second call
    show List.lookup k
        (List.filter
          (fun kv =>
            !(List.any
              (List.filter (fun pr => job_expired q.retention_seconds now₂ pr.2)
                ((q.cleanup_locked now₁).jobs ++ [(f₁, mkJobRecord q now₁ f₁ fn p k)]))
              (fun pr => pr.2.idempotency_key == some kv.1)))
          ((q.cleanup_locked now₁).idempotency_index ++ [(k, f₁)])) =
      some f₁
    have hexp : List.filter (fun pr => job_expired q.retention_seconds now₂ pr.2)
          ((q.cleanup_locked now₁).jobs ++ [(f₁, mkJobRecord q now₁ f₁ fn p k)]) =
        List.filter (fun pr => job_expired q.retention_seconds now₂ pr.2)
          (q.cleanup_locked now₁).jobs := by
      rw [List.filter_append]
      simp [job_expired, mkJobRecord]
    simp only [hexp]
    rw [List.filter_append]
    rw [lookup_append_of_none _ _ _ (lookup_filter_none _ _ _ hmiss)]
    have hP2 : ((q.cleanup_locked now₁).jobs.any fun a =>
        job_expired q.retention_seconds now₂ a.2 && a.2.idempotency_key == some k) =
          false := by
      rw [List.any_eq_false]
      intro pr hpr
      simp only [Bool.and_eq_true, not_and]
      intro _
      have hne := hnokey pr hpr
      simp [hne]
    simp [List.filter_cons, hP2, List.lookup]
  · -- the fresh record itself survives the cleanup at the second call
    show List.lookup f₁
        (List.filter (fun pr => !(job_expired q.retention_seconds now₂ pr.2))
          ((q.cleanup_locked now₁).jobs ++ [(f₁, mkJobRecord q now₁ f₁ fn p k)])) =
      some (mkJobRecord q now₁ f₁ fn p k)
    rw [List.filter_append]
    rw [lookup_append_of_none _ _ _ (lookup_filter_none _ _ _ hfresh)]
    simp [List.filter_cons, job_expired, mkJobRecord, List.lookup]

theorem C5_witness :
    ("k" : String).isEmpty = false
    ∧ (wQueueEmpty.cleanup_locked 0).idempotency_index.lookup "k" = none
    ∧ ¬ wQueueEmpty.max_queue_size ≤ (wQueueEmpty.cleanup_locked 0).jobs.length
    ∧ (wQueueEmpty.cleanup_locked 0).jobs.lookup "j1" = none
    ∧ (wQueueEmpty.enqueue 0 "j1" "scanner_batch_pipeline" () (some "k")).2.enqueue 5 "j9"
        "scanner_batch_pipeline" () (some "k") =
      (.existing (mkJobRecord wQueueEmpty 0 "j1" "scanner_batch_pipeline" () "k"),
       (wQueueEmpty.enqueue 0 "j1" "scanner_batch_pipeline" () (some "k")).2.cleanup_locked 5) :=
  ⟨rfl, rfl, by decide, rfl,
   (C5_idempotent_requeue wQueueEmpty 0 5 "j1" "j9" "scanner_batch_pipeline"
      "scanner_batch_pipeline" () () "k" rfl rfl (by decide) rfl
      (by intro pr hpr; exact absurd hpr (List.not_mem_nil pr))).2.2.2⟩

end RiskMapper
